import Mathlib

/-!
Shallow embedding of the Target Lifecycle and Active-Probing Scheduler core of
`network_exporter`: the configuration resolution engine (`config/config.go`)
and the ICMP probe scheduler (`target/target_ping.go`).

Conventions of the embedding:
* Go `time.Duration` values (int64 nanoseconds) and Go `int` fields are
  modelled as `Int`.
* A Go slice field that the code compares against `nil` is modelled as
  `Option (List _)`: `none` is the nil slice, `some []` a non-nil empty slice.
* Go maps `map[string]bool` used as name sets are modelled as `List String`
  with membership via `List.contains`.
* Fallible steps return `Except`/`Option`; a Go runtime panic is modelled as a
  distinguished outcome constructor (`fault...`).
* External collaborators of the resolution engine (`common.SrvRecordCheck`,
  `common.SrvRecordHosts`, living outside the sampled files) are passed in as
  oracle parameters, so theorems quantify over their behaviour.
-/

namespace NetworkExporter

/-- One raw target record of the `targets` list (the anonymous struct element
of `config.Targets`).  Fields are named after the yaml keys.  `probe` is
`Option (List String)`: `none` models Go's nil slice (yaml key absent),
`some l` a non-nil slice. -/
structure TargetSpec where
  name : String
  host : String
  type : String
  proxy : String
  probe : Option (List String)
  sourceIp : String
  labels : List (String × String)
deriving DecidableEq

/-- Go `config.Targets` is a slice of target records. -/
abbrev Targets := List TargetSpec

/-- Go `config.duration` (int64 nanoseconds). -/
abbrev duration := Int

/-- Go `config.HTTPGet` global probe parameters. -/
structure HTTPGet where
  interval : duration
  timeout : duration
deriving DecidableEq

/-- Go `config.TCP` global probe parameters. -/
structure TCP where
  interval : duration
  timeout : duration
deriving DecidableEq

/-- Go `config.MTR` global probe parameters (yaml key `max-hops` becomes
`maxHops`). -/
structure MTR where
  interval : duration
  timeout : duration
  maxHops : Int
  count : Int
deriving DecidableEq

/-- Go `config.ICMP` global probe parameters. -/
structure ICMP where
  interval : duration
  timeout : duration
  count : Int
deriving DecidableEq

/-- Go `config.Conf` general settings. -/
structure Conf where
  refresh : duration
  nameserver : String
  nameserverTimeout : duration
deriving DecidableEq

/-- Go `config.Config`: the whole configuration document. -/
structure Config where
  conf : Conf
  icmp : ICMP
  mtr : MTR
  tcp : TCP
  httpGet : HTTPGet
  targets : Targets
deriving DecidableEq

/-! ### The type-validation regular expression

`ReloadConfig` validates the `type` field with
`regexp.MustCompile("^ICMP|MTR|ICMP+MTR|TCP|HTTPGet$")` and `re.MatchString`.
In Go regexp syntax alternation has the lowest precedence and `+` binds to the
preceding atom, so this pattern is `(^ICMP)|(MTR)|(ICM P+ MTR)|(TCP)|(HTTPGet$)`
matched unanchored: a string matches iff it starts with `ICMP`, or contains
`MTR`, or contains `ICM` followed by one or more `P` followed by `MTR`, or
contains `TCP`, or ends with `HTTPGet`.  The embedding reproduces exactly this
(buggy) semantics on `List Char`. -/

/-- `charsPrefixOf pat s` is true iff `pat` occurs at the start of `s`. -/
def charsPrefixOf : List Char → List Char → Bool
  | [], _ => true
  | _ :: _, [] => false
  | p :: ps, c :: cs => p == c && charsPrefixOf ps cs

/-- `anyPos p s` is true iff `p` holds at some position of `s` (any suffix,
including the empty one): unanchored regexp search. -/
def anyPos (p : List Char → Bool) : List Char → Bool
  | [] => p []
  | c :: cs => p (c :: cs) || anyPos p cs

/-- Matches `P+MTR` at the head of the list: one or more `P`, then `MTR`. -/
def pRunMTR : List Char → Bool
  | 'P' :: rest => charsPrefixOf ['M', 'T', 'R'] rest || pRunMTR rest
  | _ => false

/-- Matches the regexp alternative `ICMP+MTR` (i.e. `ICM P+ MTR`) at the head
of the list. -/
def icmPplusMTRAt (s : List Char) : Bool :=
  charsPrefixOf ['I', 'C', 'M'] s && pRunMTR (s.drop 3)

/-- Embedding of `re.MatchString` for the pattern
`^ICMP|MTR|ICMP+MTR|TCP|HTTPGet$` of `ReloadConfig` (config.go line 117). -/
def typeRegexMatch (s : String) : Bool :=
  charsPrefixOf "ICMP".data s.data
    || anyPos (fun t => charsPrefixOf "MTR".data t) s.data
    || anyPos icmPplusMTRAt s.data
    || anyPos (fun t => charsPrefixOf "TCP".data t) s.data
    || anyPos (fun t => t == "HTTPGet".data) s.data

/-- The five type strings the configuration documentation allows (the log
message of `ReloadConfig` lists `(ICMP|MTR|ICMP+MTR|TCP|HTTPGet)`). -/
def validType (ty : String) : Bool :=
  ty == "ICMP" || ty == "MTR" || ty == "ICMP+MTR" || ty == "TCP" || ty == "HTTPGet"

/-! ### Duplicate detection (`HasDuplicateTargets`, config.go lines 227-253) -/

/-- Outcome of `HasDuplicateTargets`.  `ok` is Go's `(false, nil)`, `dup n` is
`(true, error "found duplicated record: n")`.  `nilMapFault` models the Go
runtime panic raised by `tmp[t.Type][t.Name] = true` when `t.Type` is none of
the four initialised map keys and not `"ICMP+MTR"`: indexing the outer map
yields a nil inner map, reading from it yields `false`, but assigning into it
panics. -/
inductive DupOutcome where
  | ok
  | dup (name : String)
  | nilMapFault
deriving DecidableEq

/-- The two ways the loop body of `HasDuplicateTargets` can abort: an early
`return true, fmt.Errorf(...)` on a duplicate, or the nil-map-assignment
runtime panic. -/
inductive DupErr where
  | dup (name : String)
  | nilMapFault
deriving DecidableEq

/-- The `tmp` map of `HasDuplicateTargets`: four per-type name sets. -/
structure DupState where
  tcp : List String
  icmp : List String
  mtr : List String
  httpGet : List String
deriving DecidableEq

/-- Processing of one target record by the loop body of
`HasDuplicateTargets`: the `"ICMP+MTR"` compound type is checked and inserted
in the MTR namespace first, then the ICMP namespace; every other type string
indexes the `tmp` map directly (a string other than the four keys panics on
assignment, see `DupOutcome.nilMapFault`). -/
def dupStep (st : DupState) (t : TargetSpec) : Except DupErr DupState :=
  if t.type == "ICMP+MTR" then
    if st.mtr.contains t.name then .error (.dup t.name)
    else
      let st1 := { st with mtr := t.name :: st.mtr }
      if st1.icmp.contains t.name then .error (.dup t.name)
      else .ok { st1 with icmp := t.name :: st1.icmp }
  else if t.type == "TCP" then
    if st.tcp.contains t.name then .error (.dup t.name)
    else .ok { st with tcp := t.name :: st.tcp }
  else if t.type == "ICMP" then
    if st.icmp.contains t.name then .error (.dup t.name)
    else .ok { st with icmp := t.name :: st.icmp }
  else if t.type == "MTR" then
    if st.mtr.contains t.name then .error (.dup t.name)
    else .ok { st with mtr := t.name :: st.mtr }
  else if t.type == "HTTPGet" then
    if st.httpGet.contains t.name then .error (.dup t.name)
    else .ok { st with httpGet := t.name :: st.httpGet }
  else .error .nilMapFault

/-- The loop of `HasDuplicateTargets` over the target list. -/
def dupFold (st : DupState) : List TargetSpec → DupOutcome
  | [] => .ok
  | t :: ts =>
    match dupStep st t with
    | .error (.dup n) => .dup n
    | .error .nilMapFault => .nilMapFault
    | .ok st1 => dupFold st1 ts

/-- `HasDuplicateTargets` (config.go lines 227-253). -/
def hasDuplicateTargets (ts : List TargetSpec) : DupOutcome :=
  dupFold ⟨[], [], [], []⟩ ts

/-! ### Target validation, SRV expansion and probe-assignment filtering
(`ReloadConfig`, config.go lines 115-178) -/

/-- ASCII lower-casing.  Go's `strings.EqualFold` performs Unicode simple case
folding; the embedding folds ASCII letters only, which agrees with Go on the
ASCII strings the configuration uses. -/
def asciiToLower (c : Char) : Char :=
  if 'A' ≤ c && c ≤ 'Z' then Char.ofNat (c.toNat + 32) else c

/-- Embedding of `strings.EqualFold` (restricted to ASCII folding). -/
def eqFold (a b : String) : Bool :=
  a.data.map asciiToLower == b.data.map asciiToLower

/-- Embedding of `strings.Split s "."` on character lists: `Split` always
yields at least one (possibly empty) piece and one extra piece per dot. -/
def splitOnDot : List Char → List (List Char)
  | [] => [[]]
  | '.' :: rest => [] :: splitOnDot rest
  | c :: rest =>
    match splitOnDot rest with
    | [] => [[c]]
    | g :: gs => (c :: g) :: gs

/-- Embedding of `strings.Split(t.Host, ".")[1][1:]` (config.go lines 127-128),
the protocol label of an SRV record name `_service._proto.domain`.  Go panics
when the split has fewer than two pieces (index 1 out of range) or the second
piece is empty (`""[1:]` out of range); the embedding returns `none` there. -/
def srvProtoOf (host : String) : Option String :=
  match splitOnDot host.data with
  | _ :: second :: _ =>
    match second with
    | _ :: rest => some ⟨rest⟩
    | [] => none
  | _ => none

/-- The probe-assignment filter applied to one (possibly SRV-expanded) target
(config.go lines 144-154 and 163-173): a nil `probe` list keeps the target
unconditionally; otherwise the loop appends the target once per element of
`probe` equal to the running host's name (the `continue` inside the loop
continues the inner loop, so a hostname listed k times appends k copies). -/
def probeKeep (hostname : String) (t : TargetSpec) : List TargetSpec :=
  match t.probe with
  | none => [t]
  | some ps => ps.foldr (fun p acc => if p == hostname then t :: acc else acc) []

/-- Validation/expansion/filtering of a single raw target record (the loop
body of `ReloadConfig`, config.go lines 118-175).  `srvCheck` and `srvHosts`
are the external collaborators `common.SrvRecordCheck` and
`common.SrvRecordHosts`.  Returns `none` when Go would panic (the
out-of-range indexing inside the TCP protocol check), otherwise the list of
records this iteration appends to `targets`. -/
def processTarget (hostname : String) (srvCheck : String → Bool)
    (srvHosts : String → Except Unit (List String)) (t : TargetSpec) :
    Option (List TargetSpec) :=
  if srvCheck t.host then
    if !typeRegexMatch t.type then some []
    else
      let protoOk : Option Bool :=
        if t.type == "TCP" then
          match srvProtoOf t.host with
          | some p => some (eqFold t.type p)
          | none => none
        else some true
      match protoOk with
      | none => none
      | some false => some []
      | some true =>
        match srvHosts t.host with
        | .error _ => some []
        | .ok hosts =>
          some (hosts.foldr
            (fun h acc => probeKeep hostname { t with name := h, host := h } ++ acc) [])
  else
    if !typeRegexMatch t.type then some []
    else some (probeKeep hostname t)

/-- The whole validation/filter loop of `ReloadConfig` (config.go lines
116-175): records are processed in order and their kept expansions
concatenated. -/
def filterTargets (hostname : String) (srvCheck : String → Bool)
    (srvHosts : String → Except Unit (List String)) :
    List TargetSpec → Option (List TargetSpec)
  | [] => some []
  | t :: ts => do
    let here ← processTarget hostname srvCheck srvHosts t
    let rest ← filterTargets hostname srvCheck srvHosts ts
    pure (here ++ rest)

/-! ### The resolution pipeline and the live-configuration swap
(`SafeConfig.ReloadConfig`, config.go lines 93-200) -/

/-- The error returns of `ReloadConfig` after a successful parse. -/
inductive ReloadError where
  | parseErr
  | dupTarget (name : String)
  | intervalNonPositive
  | maxHopsOutOfRange
  | countOutOfRange
deriving DecidableEq

/-- Outcome of the resolution part of `ReloadConfig`.  The two `fault`
constructors model Go runtime panics: `faultSrvIndex` the out-of-range string
indexing in the TCP/SRV protocol check, `faultNilMap` the nil-map assignment
inside `HasDuplicateTargets`. -/
inductive ReloadOutcome where
  | ok (c : Config)
  | err (e : ReloadError)
  | faultSrvIndex
  | faultNilMap
deriving DecidableEq

/-- The resolution steps of `ReloadConfig` after parsing and defaults
(config.go lines 115-199): validate/expand/filter the targets, remap them into
the config, run the duplicate check, then the global sanity prechecks, in the
source's order.  On success the returned config carries the filtered target
list. -/
def reloadResolve (hostname : String) (srvCheck : String → Bool)
    (srvHosts : String → Except Unit (List String)) (c : Config) : ReloadOutcome :=
  match filterTargets hostname srvCheck srvHosts c.targets with
  | none => .faultSrvIndex
  | some ts =>
    match hasDuplicateTargets ts with
    | .nilMapFault => .faultNilMap
    | .dup n => .err (.dupTarget n)
    | .ok =>
      if c.icmp.interval ≤ 0 || c.mtr.interval ≤ 0 || c.tcp.interval ≤ 0
          || c.httpGet.interval ≤ 0 then
        .err .intervalNonPositive
      else if c.mtr.maxHops < 0 || c.mtr.maxHops > 65500 then
        .err .maxHopsOutOfRange
      else if c.mtr.count < 0 || c.mtr.count > 65500 then
        .err .countOutOfRange
      else .ok { c with targets := ts }

/-- One call of `SafeConfig.ReloadConfig` acting on the stored live
configuration `SafeConfig.Cfg` (a nil-able pointer, hence `Option Config`).
The file open / yaml decode / defaults steps are abstracted into the `parsed`
argument.  `sc.Cfg` is assigned only at the very end (config.go lines
195-197), after every validation gate has passed; on any error (or panic) the
stored configuration is untouched.  Returns the new stored configuration and
the outcome. -/
def reloadConfig (stored : Option Config) (hostname : String)
    (srvCheck : String → Bool) (srvHosts : String → Except Unit (List String))
    (parsed : Except Unit Config) : Option Config × ReloadOutcome :=
  match parsed with
  | .error _ => (stored, .err .parseErr)
  | .ok c =>
    match reloadResolve hostname srvCheck srvHosts c with
    | .ok c1 => (some c1, .ok c1)
    | o => (stored, o)

/-! ### The ICMP probe scheduler (`target/target_ping.go`) -/

/-- Modelled from the spec: `ping.PingResult` (package `pkg/ping`) is not part
of the sampled sources; the spec describes a SampleResult with windowed/instant
fields refreshed each cycle plus three cumulative counters — total samples
sent (`SntSummary`), total samples failed (`SntFailSummary`) and total elapsed
sampling time (`SntTimeSummary`) — which `PING.ping` accumulates with `+=`.
The counters are modelled as integers and all windowed fields are collapsed
into one abstract `window` field. -/
structure PingResult where
  window : Int
  SntSummary : Int
  SntFailSummary : Int
  SntTimeSummary : Int
deriving DecidableEq

/-- The merge step of `PING.ping` (target_ping.go lines 100-105): under the
exclusive lock, `data.SntSummary += t.result.SntSummary` (and likewise for the
fail and elapsed-time counters), then `t.result = data` — the stored result is
replaced by the new sample whose counters now carry the previous totals. -/
def pingMerge (stored data : PingResult) : PingResult :=
  { data with
    SntSummary := data.SntSummary + stored.SntSummary
    SntFailSummary := data.SntFailSummary + stored.SntFailSummary
    SntTimeSummary := data.SntTimeSummary + stored.SntTimeSummary }

/-- The stored result after a sequence of sampling cycles has merged, starting
from the stored value `stored` (each cycle runs `pingMerge` and replaces the
stored result). -/
def runSamples (stored : PingResult) : List PingResult → PingResult
  | [] => stored
  | d :: ds => runSamples (pingMerge stored d) ds

/-- `PING.Compute` (target_ping.go lines 115-123): returns the stored result
pointer, or nil when it is nil. -/
def compute : Option PingResult → Option PingResult
  | none => none
  | some r => some r

/-- `target.MaxConcurrentJobs`: capacity of the `waitChan` concurrency gate. -/
def maxConcurrentJobs : Nat := 3

/-- State of one `PING` scheduler together with its `Stop()` caller:
`loopAlive` — the `run` goroutine is still inside its for/select loop;
`stopClosed` — `close(t.stop)` has executed; `stopReturned` — `t.wg.Wait()`
inside `Stop()` has returned (the WaitGroup counts only the `run` goroutine,
`wg.Add(1)` in `NewPing`); `inFlight` — the samples of spawned `go t.ping()`
goroutines that have not yet reached their merge step, each holding one
`waitChan` slot; `result` — `t.result`, initialised to the zero value
`&ping.PingResult{}` by `NewPing`. -/
structure SchedState where
  loopAlive : Bool
  stopClosed : Bool
  stopReturned : Bool
  inFlight : List PingResult
  result : PingResult
deriving DecidableEq

/-- The atomic events of the scheduler/Stop interleaving.  `tickSpawn d`: the
ticker fires, the loop acquires a `waitChan` slot and spawns a ping goroutine
whose probe will produce sample `d`; `closeStop`: `Stop()` executes
`close(t.stop)`; `loopExit`: the loop selects `<-t.stop`, stops the ticker and
calls `wg.Done()`; `waitReturn`: `t.wg.Wait()` in `Stop()` returns;
`mergePing i`: the i-th in-flight ping goroutine takes `t.Lock()`, merges its
sample into `t.result` and releases its gate slot. -/
inductive SchedEvent where
  | tickSpawn (d : PingResult)
  | closeStop
  | loopExit
  | waitReturn
  | mergePing (i : Nat)
deriving DecidableEq

/-- One interleaving step.  `none` means the event is not enabled in the given
state.  `tickSpawn` requires the loop to still be running and a free gate
slot; nothing but `loopAlive` guards it — in particular the select statement
may keep choosing the ticker case after `close(t.stop)`, and crucially
`mergePing` is not guarded by `stopReturned`, because the ping goroutines are
not registered in the WaitGroup `Stop()` waits on. -/
def schedStep (s : SchedState) : SchedEvent → Option SchedState
  | .tickSpawn d =>
    if s.loopAlive && decide (s.inFlight.length < maxConcurrentJobs) then
      some { s with inFlight := s.inFlight ++ [d] }
    else none
  | .closeStop =>
    if !s.stopClosed then some { s with stopClosed := true } else none
  | .loopExit =>
    if s.loopAlive && s.stopClosed then some { s with loopAlive := false } else none
  | .waitReturn =>
    if s.stopClosed && !s.loopAlive && !s.stopReturned then
      some { s with stopReturned := true }
    else none
  | .mergePing i =>
    match s.inFlight[i]? with
    | some d =>
      some { s with inFlight := s.inFlight.eraseIdx i, result := pingMerge s.result d }
    | none => none

/-- Run a sequence of interleaving events; fails if any event is not enabled
when its turn comes. -/
def schedRun (s : SchedState) : List SchedEvent → Option SchedState
  | [] => some s
  | e :: es =>
    match schedStep s e with
    | some s1 => schedRun s1 es
    | none => none

/-- The scheduler state right after `NewPing` returns: the loop is running,
nothing is stopped, no ping is in flight, and the stored result is the zero
`PingResult`. -/
def schedInit : SchedState :=
  ⟨true, false, false, [], ⟨0, 0, 0, 0⟩⟩

/-! ### Derived notions used by the theorem statements -/

/-- The four per-type namespaces of the duplicate check. -/
inductive NS where
  | tcp
  | icmp
  | mtr
  | httpGet
deriving DecidableEq

/-- The namespaces a declared type string is inserted into by
`HasDuplicateTargets`, in the source's insertion order (the compound
`"ICMP+MTR"` inserts into MTR first, then ICMP); a type string outside the
five recognised ones belongs to no initialised namespace. -/
def nsOf (ty : String) : List NS :=
  if ty == "ICMP+MTR" then [.mtr, .icmp]
  else if ty == "TCP" then [.tcp]
  else if ty == "ICMP" then [.icmp]
  else if ty == "MTR" then [.mtr]
  else if ty == "HTTPGet" then [.httpGet]
  else []

/-- Projection of the `tmp` map onto one namespace. -/
def nsGet (st : DupState) : NS → List String
  | .tcp => st.tcp
  | .icmp => st.icmp
  | .mtr => st.mtr
  | .httpGet => st.httpGet

/-- Two target records collide for the duplicate check when they carry the
same name and their declared types share a namespace. -/
def Collides (a b : TargetSpec) : Prop :=
  a.name = b.name ∧ ∃ ns, ns ∈ nsOf a.type ∧ ns ∈ nsOf b.type

/-- A literal configuration with the source's default global parameters
(icmp 5s/4s/10, mtr 5s/4s/`mh`/10, tcp 5s/4s, http_get 15s/14s) and the given
target list; used by concrete witnesses. -/
def sampleConfig (mh : Int) (ts : Targets) : Config :=
  ⟨⟨0, "", 250⟩, ⟨5, 4, 10⟩, ⟨5, 4, mh, 10⟩, ⟨5, 4⟩, ⟨15, 14⟩, ts⟩

/-- An SRV-check oracle that recognises nothing: every host is literal. -/
def noSrv : String → Bool := fun _ => false

/-- An SRV-lookup oracle that always fails (never consulted for literal
hosts). -/
def noSrvHosts : String → Except Unit (List String) := fun _ => .error ()

/-! ## Theorems -/

/-- C2: for every stored previous configuration and every input on which
configuration resolution returns an error (parse failure, duplicate target,
interval or bounds check failure) — or even panics — the previously stored
live configuration `SafeConfig.Cfg` is left unchanged; the new configuration
is installed exactly when resolution returns no error, and then it is the
resolved one. -/
theorem C2_reload_preserves_stored_on_error (stored : Option Config)
    (hostname : String) (srvCheck : String → Bool)
    (srvHosts : String → Except Unit (List String)) (parsed : Except Unit Config) :
    (∀ e, (reloadConfig stored hostname srvCheck srvHosts parsed).2 = .err e →
      (reloadConfig stored hostname srvCheck srvHosts parsed).1 = stored) ∧
    (∀ c1, (reloadConfig stored hostname srvCheck srvHosts parsed).2 = .ok c1 →
      (reloadConfig stored hostname srvCheck srvHosts parsed).1 = some c1) ∧
    ((reloadConfig stored hostname srvCheck srvHosts parsed).1 ≠ stored →
      ∃ c1, (reloadConfig stored hostname srvCheck srvHosts parsed).2 = .ok c1) := by
  unfold reloadConfig
  cases parsed with
  | error e => simp
  | ok c =>
    cases h : reloadResolve hostname srvCheck srvHosts c with
    | ok c1 => simp [h]
    | err e => simp [h]
    | faultSrvIndex => simp [h]
    | faultNilMap => simp [h]

/-- Witness for C2 at concrete inputs: a parse failure leaves a stored
configuration in place, and a clean resolution installs the resolved
configuration. -/
theorem C2_reload_preserves_stored_on_error_witness :
    (reloadConfig (some (sampleConfig 7 [])) "r" noSrv noSrvHosts (.error ())).1
      = some (sampleConfig 7 []) ∧
    (reloadConfig none "r" noSrv noSrvHosts (.ok (sampleConfig 30 []))).1
      = some (sampleConfig 30 []) := by
  constructor
  · exact (C2_reload_preserves_stored_on_error (some (sampleConfig 7 [])) "r"
      noSrv noSrvHosts (.error ())).1 .parseErr rfl
  · exact (C2_reload_preserves_stored_on_error none "r"
      noSrv noSrvHosts (.ok (sampleConfig 30 []))).2.1 (sampleConfig 30 []) rfl

/-- C3: the claim states that type validation keeps a spec iff its type string
is exactly one of ICMP, MTR, ICMP+MTR, TCP, HTTPGet.  The code's regular
expression `^ICMP|MTR|ICMP+MTR|TCP|HTTPGet$` anchors only its first and last
alternatives, contradicting the code's own log message (allowed:
`(ICMP|MTR|ICMP+MTR|TCP|HTTPGet)`): the invalid type string "AMTRB" matches
(it contains "MTR") and the record survives the validation step, while all
five documented type strings are also accepted. -/
theorem C3_type_regex_accepts_invalid_type :
    validType "AMTRB" = false ∧ typeRegexMatch "AMTRB" = true ∧
    processTarget "runner" noSrv noSrvHosts ⟨"n", "h", "AMTRB", "", none, "", []⟩
      = some [⟨"n", "h", "AMTRB", "", none, "", []⟩] ∧
    typeRegexMatch "ICMP" = true ∧ typeRegexMatch "MTR" = true ∧
    typeRegexMatch "ICMP+MTR" = true ∧ typeRegexMatch "TCP" = true ∧
    typeRegexMatch "HTTPGet" = true ∧ typeRegexMatch "foo" = false ∧
    processTarget "runner" noSrv noSrvHosts ⟨"n", "h", "foo", "", none, "", []⟩
      = some [] := by
  decide

/-- C9: a type string ("XMTR") that is not one of the four map keys and not
"ICMP+MTR" can pass the type-validation regular expression; such a record
reaches `HasDuplicateTargets`, whose assignment into the nil inner map
panics, so configuration reload can terminate by panic instead of returning
an error. -/
theorem C9_nil_map_assignment_panic :
    typeRegexMatch "XMTR" = true ∧ validType "XMTR" = false ∧
    hasDuplicateTargets [⟨"n", "h", "XMTR", "", none, "", []⟩] = .nilMapFault ∧
    reloadResolve "r" noSrv noSrvHosts
        (sampleConfig 30 [⟨"n", "h", "XMTR", "", none, "", []⟩])
      = .faultNilMap := by
  decide

/-- The conditional-append fold of the probe filter produces one copy of the
target per occurrence of the runner's hostname. -/
theorem foldr_keep_replicate (hostname : String) (t : TargetSpec) (ps : List String) :
    ps.foldr (fun p acc => if p == hostname then t :: acc else acc) []
      = List.replicate (ps.count hostname) t := by
  induction ps with
  | nil => simp
  | cons p ps ih =>
    simp only [List.foldr_cons, List.count_cons, ih]
    by_cases hp : p = hostname
    · simp [hp, List.replicate_succ]
    · simp [hp]

/-- The probe filter appends the target once per occurrence of the runner's
hostname in a non-nil `probe` list. -/
theorem probeKeep_replicate (hostname : String) (t : TargetSpec) (ps : List String)
    (h : t.probe = some ps) :
    probeKeep hostname t = List.replicate (ps.count hostname) t := by
  unfold probeKeep
  rw [h]
  exact foldr_keep_replicate hostname t ps

/-- C4 counterexample: the claim says a spec whose assigned-runner list is
empty is kept unconditionally, but the code tests the Go slice against `nil`,
not for emptiness: a present-but-empty `probe` list (non-nil empty slice)
makes the loop body never run, and the spec is dropped. -/
theorem C4_counterexample_empty_probe_dropped :
    probeKeep "runner" ⟨"n", "h", "ICMP", "", some [], "", []⟩ = [] ∧
    processTarget "runner" noSrv noSrvHosts ⟨"n", "h", "ICMP", "", some [], "", []⟩
      = some [] := by
  decide

/-- C4 (amended): for every target spec reaching the probe-assignment filter,
if its `probe` field is absent (Go nil slice) the spec is kept unconditionally;
if the field is present, the spec is kept (one copy per occurrence) iff the
current runner's hostname appears in the list — in particular a
present-but-empty list drops it. -/
theorem C4_probe_assignment_filter (hostname : String) (t : TargetSpec) :
    (t.probe = none → probeKeep hostname t = [t]) ∧
    (∀ ps, t.probe = some ps →
      ((probeKeep hostname t ≠ [] ↔ hostname ∈ ps) ∧
        ∀ x ∈ probeKeep hostname t, x = t)) := by
  constructor
  · intro h
    simp [probeKeep, h]
  · intro ps h
    rw [probeKeep_replicate hostname t ps h]
    constructor
    · simp [List.count_pos_iff.symm, Nat.pos_iff_ne_zero]
    · intro x hx
      exact (List.eq_of_mem_replicate hx)

/-- Witness for C4 (amended): a listed hostname keeps the target, an absent
probe field keeps it unconditionally. -/
theorem C4_probe_assignment_filter_witness :
    ((probeKeep "r" ⟨"n", "h", "ICMP", "", some ["r", "x"], "", []⟩ ≠ []) ↔
      "r" ∈ ["r", "x"]) ∧
    probeKeep "rr" ⟨"n", "h", "ICMP", "", none, "", []⟩
      = [⟨"n", "h", "ICMP", "", none, "", []⟩] := by
  constructor
  · exact ((C4_probe_assignment_filter "r"
      ⟨"n", "h", "ICMP", "", some ["r", "x"], "", []⟩).2 ["r", "x"] rfl).1
  · exact (C4_probe_assignment_filter "rr"
      ⟨"n", "h", "ICMP", "", none, "", []⟩).1 rfl

/-- With no probe-assignment filter, SRV expansion turns the discovered host
list into one sub-target per discovered address. -/
theorem foldr_expand_of_probe_none (hostname : String) (t : TargetSpec)
    (h : t.probe = none) (hosts : List String) :
    hosts.foldr
        (fun h2 acc => probeKeep hostname { t with name := h2, host := h2 } ++ acc) []
      = hosts.map fun a => { t with name := a, host := a } := by
  induction hosts with
  | nil => simp
  | cons x xs ih =>
    simp only [List.foldr_cons, List.map_cons, ih]
    simp [probeKeep, h]

/-- C5: for every valid target spec with no runner-assignment filter, a
literal (non-SRV) host yields exactly the one unchanged record, and an SRV
host whose lookup returns a list of addresses yields exactly one record per
address, each inheriting the spec's type, labels and probe-assignment, with
both name and host set to the discovered value (for type TCP, provided the
SRV protocol label matches). -/
theorem C5_srv_expansion (hostname : String) (srvCheck : String → Bool)
    (srvHosts : String → Except Unit (List String)) (t : TargetSpec)
    (hprobe : t.probe = none) (hvalid : typeRegexMatch t.type = true) :
    (srvCheck t.host = false →
      processTarget hostname srvCheck srvHosts t = some [t]) ∧
    (∀ addrs, srvCheck t.host = true → srvHosts t.host = .ok addrs →
      (t.type = "TCP" → ∃ p, srvProtoOf t.host = some p ∧ eqFold t.type p = true) →
      processTarget hostname srvCheck srvHosts t
        = some (addrs.map fun a => { t with name := a, host := a })) := by
  constructor
  · intro hsrv
    simp [processTarget, hsrv, hvalid, probeKeep, hprobe]
  · intro addrs hsrv hok htcp
    unfold processTarget
    rw [hsrv]
    simp only [hvalid, Bool.not_true, Bool.false_eq_true, reduceIte, if_true]
    by_cases hty : t.type = "TCP"
    · obtain ⟨p, hp, hfold⟩ := htcp hty
      have hty2 : (t.type == "TCP") = true := by simpa using hty
      simp only [hty2, reduceIte, if_true, hp, hfold, hok]
      rw [foldr_expand_of_probe_none hostname t hprobe addrs]
    · have hty2 : (t.type == "TCP") = false := by simpa using hty
      simp only [hty2, Bool.false_eq_true, reduceIte, if_false, hok]
      rw [foldr_expand_of_probe_none hostname t hprobe addrs]

/-- Witness for C5: a literal ICMP target resolves to itself; an SRV ICMP
target expanding to two addresses resolves to two renamed/rehosted copies. -/
theorem C5_srv_expansion_witness :
    processTarget "r" (fun _ => false) (fun _ => .ok ["x1", "x2"])
        ⟨"a", "h", "ICMP", "", none, "", [("k", "v")]⟩
      = some [⟨"a", "h", "ICMP", "", none, "", [("k", "v")]⟩] ∧
    processTarget "r" (fun _ => true) (fun _ => .ok ["x1", "x2"])
        ⟨"a", "h", "ICMP", "", none, "", [("k", "v")]⟩
      = some [⟨"x1", "x1", "ICMP", "", none, "", [("k", "v")]⟩,
          ⟨"x2", "x2", "ICMP", "", none, "", [("k", "v")]⟩] := by
  constructor
  · exact (C5_srv_expansion "r" (fun _ => false) (fun _ => .ok ["x1", "x2"])
      ⟨"a", "h", "ICMP", "", none, "", [("k", "v")]⟩ rfl (by decide)).1 rfl
  · exact (C5_srv_expansion "r" (fun _ => true) (fun _ => .ok ["x1", "x2"])
      ⟨"a", "h", "ICMP", "", none, "", [("k", "v")]⟩ rfl (by decide)).2
      ["x1", "x2"] rfl rfl (fun h => absurd h (by decide))

/-- C6: once parsing and the duplicate check succeed, resolution fails with a
fatal error if and only if some probe type's interval is not strictly
positive, or the MTR max-hops value lies outside [0, 65500], or the MTR count
lies outside [0, 65500]; moreover, with positive intervals, an out-of-range
max-hops value yields precisely the max-hops bounds error. -/
theorem C6_global_sanity_bounds (hostname : String) (srvCheck : String → Bool)
    (srvHosts : String → Except Unit (List String)) (c : Config)
    (ts : List TargetSpec)
    (hf : filterTargets hostname srvCheck srvHosts c.targets = some ts)
    (hdup : hasDuplicateTargets ts = .ok) :
    ((∃ e, reloadResolve hostname srvCheck srvHosts c = .err e) ↔
      (c.icmp.interval ≤ 0 ∨ c.mtr.interval ≤ 0 ∨ c.tcp.interval ≤ 0 ∨
        c.httpGet.interval ≤ 0 ∨ c.mtr.maxHops < 0 ∨ 65500 < c.mtr.maxHops ∨
        c.mtr.count < 0 ∨ 65500 < c.mtr.count)) ∧
    (0 < c.icmp.interval → 0 < c.mtr.interval → 0 < c.tcp.interval →
      0 < c.httpGet.interval → (c.mtr.maxHops < 0 ∨ 65500 < c.mtr.maxHops) →
      reloadResolve hostname srvCheck srvHosts c = .err .maxHopsOutOfRange) := by
  unfold reloadResolve
  rw [hf]
  dsimp only
  rw [hdup]
  dsimp only
  by_cases h1 : c.icmp.interval ≤ 0 ∨ c.mtr.interval ≤ 0 ∨ c.tcp.interval ≤ 0 ∨
      c.httpGet.interval ≤ 0
  · have hb : (c.icmp.interval ≤ 0 || c.mtr.interval ≤ 0 || c.tcp.interval ≤ 0 ||
        c.httpGet.interval ≤ 0) = true := by
      simp only [Bool.or_eq_true, decide_eq_true_eq]
      tauto
    rw [if_pos hb]
    constructor
    · constructor
      · intro _
        tauto
      · intro _
        exact ⟨.intervalNonPositive, rfl⟩
    · intro hi1 hi2 hi3 hi4 _
      exfalso
      rcases h1 with h | h | h | h
      · exact absurd h (not_le.mpr hi1)
      · exact absurd h (not_le.mpr hi2)
      · exact absurd h (not_le.mpr hi3)
      · exact absurd h (not_le.mpr hi4)
  · have hb : (c.icmp.interval ≤ 0 || c.mtr.interval ≤ 0 || c.tcp.interval ≤ 0 ||
        c.httpGet.interval ≤ 0) = false := by
      simp only [Bool.or_eq_false_iff, decide_eq_false_iff_not]
      tauto
    rw [if_neg (by simp [hb])]
    by_cases h2 : c.mtr.maxHops < 0 ∨ 65500 < c.mtr.maxHops
    · have hb2 : (c.mtr.maxHops < 0 || c.mtr.maxHops > 65500) = true := by
        simp only [Bool.or_eq_true, decide_eq_true_eq]
        tauto
      rw [if_pos hb2]
      constructor
      · constructor
        · intro _
          tauto
        · intro _
          exact ⟨.maxHopsOutOfRange, rfl⟩
      · intro _ _ _ _ _
        rfl
    · have hb2 : (c.mtr.maxHops < 0 || c.mtr.maxHops > 65500) = false := by
        simp only [Bool.or_eq_false_iff, decide_eq_false_iff_not]
        tauto
      rw [if_neg (by simp [hb2])]
      by_cases h3 : c.mtr.count < 0 ∨ 65500 < c.mtr.count
      · have hb3 : (c.mtr.count < 0 || c.mtr.count > 65500) = true := by
          simp only [Bool.or_eq_true, decide_eq_true_eq]
          tauto
        rw [if_pos hb3]
        constructor
        · constructor
          · intro _
            tauto
          · intro _
            exact ⟨.countOutOfRange, rfl⟩
        · intro _ _ _ _ hmh
          tauto
      · have hb3 : (c.mtr.count < 0 || c.mtr.count > 65500) = false := by
          simp only [Bool.or_eq_false_iff, decide_eq_false_iff_not]
          tauto
        rw [if_neg (by simp [hb3])]
        constructor
        · constructor
          · rintro ⟨e, he⟩
            cases he
          · intro h
            tauto
        · intro _ _ _ _ hmh
          tauto

/-- Witness for C6: with default parameters and no targets, `mtr.max-hops =
70000` fails resolution with a bounds error while `mtr.max-hops = 30`
succeeds. -/
theorem C6_global_sanity_bounds_witness :
    (∃ e, reloadResolve "r" noSrv noSrvHosts (sampleConfig 70000 []) = .err e) ∧
    ¬ (∃ e, reloadResolve "r" noSrv noSrvHosts (sampleConfig 30 []) = .err e) := by
  constructor
  · exact (C6_global_sanity_bounds "r" noSrv noSrvHosts (sampleConfig 70000 [])
      [] rfl rfl).1.mpr (by decide)
  · intro h
    exact absurd ((C6_global_sanity_bounds "r" noSrv noSrvHosts (sampleConfig 30 [])
      [] rfl rfl).1.mp h) (by decide)

/-- Merging cycles is a left fold: the cycles of `pre ++ post` first merge
`pre`, then `post` on top of the intermediate stored result. -/
theorem runSamples_append (stored : PingResult) (pre post : List PingResult) :
    runSamples stored (pre ++ post) = runSamples (runSamples stored pre) post := by
  induction pre generalizing stored with
  | nil => rfl
  | cons d ds ih => simp [runSamples, ih]

/-- If every merged sample carries non-negative counters, the stored counters
never drop below their starting values. -/
theorem runSamples_counters_mono (stored : PingResult) (ds : List PingResult)
    (h : ∀ d ∈ ds, 0 ≤ d.SntSummary ∧ 0 ≤ d.SntFailSummary ∧ 0 ≤ d.SntTimeSummary) :
    stored.SntSummary ≤ (runSamples stored ds).SntSummary ∧
    stored.SntFailSummary ≤ (runSamples stored ds).SntFailSummary ∧
    stored.SntTimeSummary ≤ (runSamples stored ds).SntTimeSummary := by
  induction ds generalizing stored with
  | nil => exact ⟨le_refl _, le_refl _, le_refl _⟩
  | cons d ds ih =>
    have hd := h d (List.mem_cons_self d ds)
    have hrest := ih (pingMerge stored d) (fun x hx => h x (List.mem_cons_of_mem d hx))
    refine ⟨le_trans ?_ hrest.1, le_trans ?_ hrest.2.1, le_trans ?_ hrest.2.2⟩
    · simpa [pingMerge] using Int.add_le_add hd.1 (le_refl stored.SntSummary)
    · simpa [pingMerge] using Int.add_le_add hd.2.1 (le_refl stored.SntFailSummary)
    · simpa [pingMerge] using Int.add_le_add hd.2.2 (le_refl stored.SntTimeSummary)

/-- C7: each merge step sets the stored result's three cumulative counters to
the new windowed sample's values plus the previously stored counters, keeps
the windowed fields of the new sample, and replaces the stored result; hence
when every windowed sample reports non-negative counts, the counters observed
via Compute never decrease across further cycles. -/
theorem C7_merge_monotone_counters (stored data : PingResult)
    (pre post : List PingResult)
    (h : ∀ d ∈ post, 0 ≤ d.SntSummary ∧ 0 ≤ d.SntFailSummary ∧ 0 ≤ d.SntTimeSummary) :
    (pingMerge stored data).SntSummary = data.SntSummary + stored.SntSummary ∧
    (pingMerge stored data).SntFailSummary
      = data.SntFailSummary + stored.SntFailSummary ∧
    (pingMerge stored data).SntTimeSummary
      = data.SntTimeSummary + stored.SntTimeSummary ∧
    (pingMerge stored data).window = data.window ∧
    compute (some (runSamples stored pre)) = some (runSamples stored pre) ∧
    (runSamples stored pre).SntSummary
      ≤ (runSamples stored (pre ++ post)).SntSummary ∧
    (runSamples stored pre).SntFailSummary
      ≤ (runSamples stored (pre ++ post)).SntFailSummary ∧
    (runSamples stored pre).SntTimeSummary
      ≤ (runSamples stored (pre ++ post)).SntTimeSummary := by
  have hmono := runSamples_counters_mono (runSamples stored pre) post h
  rw [runSamples_append stored pre post]
  exact ⟨rfl, rfl, rfl, rfl, rfl, hmono.1, hmono.2.1, hmono.2.2⟩

/-- Witness for C7: one concrete merge, and monotonicity across two further
cycles. -/
theorem C7_merge_monotone_counters_witness :
    (pingMerge ⟨9, 10, 2, 30⟩ ⟨4, 5, 1, 20⟩).SntSummary = 5 + 10 ∧
    (runSamples ⟨9, 10, 2, 30⟩ [⟨1, 5, 1, 7⟩]).SntSummary
      ≤ (runSamples ⟨9, 10, 2, 30⟩ ([⟨1, 5, 1, 7⟩] ++ [⟨2, 5, 0, 8⟩])).SntSummary := by
  have h := C7_merge_monotone_counters ⟨9, 10, 2, 30⟩ ⟨4, 5, 1, 20⟩
    [⟨1, 5, 1, 7⟩] [⟨2, 5, 0, 8⟩] (by decide)
  exact ⟨h.1, h.2.2.2.2.2.1⟩

/-- Removing one element never lengthens a list. -/
theorem length_eraseIdx_le {α : Type} (l : List α) (i : Nat) :
    (l.eraseIdx i).length ≤ l.length := by
  rw [List.length_eraseIdx]
  split <;> omega

/-- C8 counterexample: the claim says that once `Stop()` has returned the
stored CumulativeResult is never mutated again.  But the WaitGroup counts only
the `run` goroutine, not the ping goroutines the loop spawns: in the
interleaving tick/spawn, close, loop-exit, wait-return, the spawned ping is
still in flight when `Stop()` returns with the stored result still zero, and
its subsequent merge mutates the stored result — the two Compute snapshots
differ. -/
theorem C8_counterexample_merge_after_stop :
    (schedRun schedInit
        [.tickSpawn ⟨7, 3, 1, 2⟩, .closeStop, .loopExit, .waitReturn]).map
        SchedState.stopReturned = some true ∧
    (schedRun schedInit
        [.tickSpawn ⟨7, 3, 1, 2⟩, .closeStop, .loopExit, .waitReturn]).map
        SchedState.result = some ⟨0, 0, 0, 0⟩ ∧
    (schedRun schedInit
        [.tickSpawn ⟨7, 3, 1, 2⟩, .closeStop, .loopExit, .waitReturn,
          .mergePing 0]).map SchedState.result = some ⟨7, 3, 1, 2⟩ ∧
    compute (some ⟨0, 0, 0, 0⟩) ≠ compute (some (⟨7, 3, 1, 2⟩ : PingResult)) := by
  decide

/-- C8 (amended): once `Stop()` has returned (loop exited, stop channel
closed, wait returned), no new sample execution can start — every further
enabled event is the merge of an already in-flight ping — so the in-flight
count never grows; and if no ping was in flight at the moment `Stop()`
returned, the scheduler state (in particular the stored CumulativeResult read
by `Compute()`) never changes again. -/
theorem C8_stop_quiescent_when_no_inflight (s s1 : SchedState)
    (evs : List SchedEvent) (halive : s.loopAlive = false)
    (hclosed : s.stopClosed = true) (hstop : s.stopReturned = true)
    (hrun : schedRun s evs = some s1) :
    s1.inFlight.length ≤ s.inFlight.length ∧ (s.inFlight = [] → s1 = s) := by
  induction evs generalizing s with
  | nil =>
    cases hrun
    exact ⟨le_refl _, fun _ => rfl⟩
  | cons e es ih =>
    cases e with
    | tickSpawn d =>
      simp [schedRun, schedStep, halive] at hrun
    | closeStop =>
      simp [schedRun, schedStep, hclosed] at hrun
    | loopExit =>
      simp [schedRun, schedStep, halive] at hrun
    | waitReturn =>
      simp [schedRun, schedStep, hstop] at hrun
    | mergePing i =>
      rw [schedRun] at hrun
      cases hg : s.inFlight[i]? with
      | none => simp [schedStep, hg] at hrun
      | some d =>
        simp only [schedStep, hg] at hrun
        have hmid := ih ⟨s.loopAlive, s.stopClosed, s.stopReturned, s.inFlight.eraseIdx i, pingMerge s.result d⟩ halive hclosed hstop hrun
        constructor
        · exact le_trans hmid.1 (length_eraseIdx_le s.inFlight i)
        · intro hnil
          rw [hnil] at hg
          cases hg

/-- Witness for C8 (amended): a stopped scheduler with nothing in flight is
unchanged by any further (empty) schedule. -/
theorem C8_stop_quiescent_when_no_inflight_witness :
    (⟨false, true, true, [], ⟨1, 2, 3, 4⟩⟩ : SchedState).inFlight.length
        ≤ (⟨false, true, true, [], ⟨1, 2, 3, 4⟩⟩ : SchedState).inFlight.length ∧
    ((⟨false, true, true, [], ⟨1, 2, 3, 4⟩⟩ : SchedState).inFlight = [] →
      (⟨false, true, true, [], ⟨1, 2, 3, 4⟩⟩ : SchedState)
        = ⟨false, true, true, [], ⟨1, 2, 3, 4⟩⟩) :=
  C8_stop_quiescent_when_no_inflight ⟨false, true, true, [], ⟨1, 2, 3, 4⟩⟩
    ⟨false, true, true, [], ⟨1, 2, 3, 4⟩⟩ [] rfl rfl rfl rfl

/-- Each of the five documented type strings passes the validation regular
expression. -/
theorem validType_regexMatch (ty : String) (h : validType ty = true) :
    typeRegexMatch ty = true := by
  simp only [validType, Bool.or_eq_true, beq_iff_eq] at h
  rcases h with (((h | h) | h) | h) | h <;> subst h <;> decide

/-- Two or more copies of one record with a recognised type always trip the
duplicate check on the record's name. -/
theorem hasDuplicateTargets_replicate (t : TargetSpec)
    (hty : validType t.type = true) (k : Nat) (hk : 2 ≤ k) :
    hasDuplicateTargets (List.replicate k t) = .dup t.name := by
  obtain ⟨n, rfl⟩ : ∃ n, k = n + 2 := ⟨k - 2, by omega⟩
  rw [List.replicate_succ, List.replicate_succ]
  simp only [validType, Bool.or_eq_true, beq_iff_eq] at hty
  rcases hty with (((h | h) | h) | h) | h <;>
    simp [hasDuplicateTargets, dupFold, dupStep, h]

/-- C10: a spec (with a recognised type and literal host) whose non-empty
assigned-runner list contains the current runner's hostname k ≥ 2 times is
appended k times by the filtering step, and the subsequent duplicate check
then fails the entire reload with a duplicate-target error on its name. -/
theorem C10_hostname_multiplicity_dup (hostname : String)
    (srvCheck : String → Bool) (srvHosts : String → Except Unit (List String))
    (t : TargetSpec) (ps : List String) (c : Config)
    (hty : validType t.type = true) (hprobe : t.probe = some ps)
    (hk : 2 ≤ ps.count hostname) (hsrv : srvCheck t.host = false)
    (hc : c.targets = [t]) :
    processTarget hostname srvCheck srvHosts t
      = some (List.replicate (ps.count hostname) t) ∧
    reloadResolve hostname srvCheck srvHosts c = .err (.dupTarget t.name) := by
  have hregex := validType_regexMatch t.type hty
  have hpt : processTarget hostname srvCheck srvHosts t
      = some (List.replicate (ps.count hostname) t) := by
    simp [processTarget, hsrv, hregex, probeKeep_replicate hostname t ps hprobe]
  refine ⟨hpt, ?_⟩
  unfold reloadResolve
  rw [hc]
  have hft : filterTargets hostname srvCheck srvHosts [t]
      = some (List.replicate (ps.count hostname) t) := by
    simp [filterTargets, hpt]
  rw [hft]
  dsimp only
  rw [hasDuplicateTargets_replicate t hty (ps.count hostname) hk]

/-- Witness for C10: hostname "r" listed twice appends the ICMP target twice
and the reload fails with the duplicate-target error. -/
theorem C10_hostname_multiplicity_dup_witness :
    processTarget "r" noSrv noSrvHosts ⟨"n", "h", "ICMP", "", some ["r", "r"], "", []⟩
      = some (List.replicate ((["r", "r"] : List String).count "r")
          ⟨"n", "h", "ICMP", "", some ["r", "r"], "", []⟩) ∧
    reloadResolve "r" noSrv noSrvHosts
        (sampleConfig 30 [⟨"n", "h", "ICMP", "", some ["r", "r"], "", []⟩])
      = .err (.dupTarget "n") :=
  C10_hostname_multiplicity_dup "r" noSrv noSrvHosts
    ⟨"n", "h", "ICMP", "", some ["r", "r"], "", []⟩ ["r", "r"]
    (sampleConfig 30 [⟨"n", "h", "ICMP", "", some ["r", "r"], "", []⟩])
    (by decide) rfl (by decide) rfl rfl

/-- After a successful duplicate-check step, a namespace holds exactly the
names it held before plus the processed record's name in each namespace of the
record's type. -/
theorem mem_nsGet_dupStep_ok (st st1 : DupState) (t : TargetSpec)
    (h : dupStep st t = .ok st1) (ns : NS) (x : String) :
    x ∈ nsGet st1 ns ↔ x ∈ nsGet st ns ∨ (ns ∈ nsOf t.type ∧ x = t.name) := by
  unfold dupStep at h
  split at h
  · rename_i hty
    have hty2 : t.type = "ICMP+MTR" := by simpa using hty
    split at h
    · simp at h
    · dsimp only at h
      split at h
      · simp at h
      · cases h
        rw [hty2]
        cases ns <;> simp [nsGet, nsOf] <;> tauto
  · rename_i hty1
    split at h
    · rename_i hty
      have hty2 : t.type = "TCP" := by simpa using hty
      split at h
      · simp at h
      · cases h
        rw [hty2]
        cases ns <;> simp [nsGet, nsOf] <;> tauto
    · rename_i hty1b
      split at h
      · rename_i hty
        have hty2 : t.type = "ICMP" := by simpa using hty
        split at h
        · simp at h
        · cases h
          rw [hty2]
          cases ns <;> simp [nsGet, nsOf] <;> tauto
      · rename_i hty1c
        split at h
        · rename_i hty
          have hty2 : t.type = "MTR" := by simpa using hty
          split at h
          · simp at h
          · cases h
            rw [hty2]
            cases ns <;> simp [nsGet, nsOf] <;> tauto
        · rename_i hty1d
          split at h
          · rename_i hty
            have hty2 : t.type = "HTTPGet" := by simpa using hty
            split at h
            · simp at h
            · cases h
              rw [hty2]
              cases ns <;> simp [nsGet, nsOf] <;> tauto
          · simp at h

/-- A successful duplicate-check step means the record's name was absent from
every namespace of its type. -/
theorem dupStep_ok_not_mem (st st1 : DupState) (t : TargetSpec)
    (h : dupStep st t = .ok st1) :
    ∀ ns ∈ nsOf t.type, t.name ∉ nsGet st ns := by
  unfold dupStep at h
  split at h
  · rename_i hty
    have hty2 : t.type = "ICMP+MTR" := by simpa using hty
    split at h
    · simp at h
    · rename_i hmtr
      dsimp only at h
      split at h
      · simp at h
      · rename_i hicmp
        rw [hty2]
        intro ns hns
        simp only [nsOf] at hns
        simp only [show (("ICMP+MTR" : String) == "ICMP+MTR") = true from rfl,
          if_true, List.mem_cons, List.mem_singleton, List.not_mem_nil,
          or_false] at hns
        rcases hns with rfl | rfl
        · simpa [nsGet] using hmtr
        · simpa [nsGet] using hicmp
  · rename_i hty1
    split at h
    · rename_i hty
      have hty2 : t.type = "TCP" := by simpa using hty
      split at h
      · simp at h
      · rename_i hc
        rw [hty2]
        intro ns hns
        simp [nsOf] at hns
        subst hns
        simpa [nsGet] using hc
    · rename_i hty1b
      split at h
      · rename_i hty
        have hty2 : t.type = "ICMP" := by simpa using hty
        split at h
        · simp at h
        · rename_i hc
          rw [hty2]
          intro ns hns
          simp [nsOf] at hns
          subst hns
          simpa [nsGet] using hc
      · rename_i hty1c
        split at h
        · rename_i hty
          have hty2 : t.type = "MTR" := by simpa using hty
          split at h
          · simp at h
          · rename_i hc
            rw [hty2]
            intro ns hns
            simp [nsOf] at hns
            subst hns
            simpa [nsGet] using hc
        · rename_i hty1d
          split at h
          · rename_i hty
            have hty2 : t.type = "HTTPGet" := by simpa using hty
            split at h
            · simp at h
            · rename_i hc
              rw [hty2]
              intro ns hns
              simp [nsOf] at hns
              subst hns
              simpa [nsGet] using hc
          · simp at h

/-- The duplicate-check loop body panics on the nil-map assignment exactly
when the record's type is not one of the five recognised strings. -/
theorem dupStep_fault_invalid (st : DupState) (t : TargetSpec)
    (h : dupStep st t = .error .nilMapFault) : validType t.type = false := by
  unfold dupStep at h
  split at h
  · split at h
    · simp at h
    · dsimp only at h
      split at h
      · simp at h
      · simp at h
  · rename_i h1
    split at h
    · split at h
      · simp at h
      · simp at h
    · rename_i h2
      split at h
      · split at h
        · simp at h
        · simp at h
      · rename_i h3
        split at h
        · split at h
          · simp at h
          · simp at h
        · rename_i h4
          split at h
          · split at h
            · simp at h
            · simp at h
          · rename_i h5
            simp only [validType, Bool.or_eq_false_iff]
            simp only [Bool.not_eq_true] at h1 h2 h3 h4 h5
            exact ⟨⟨⟨⟨h3, h4⟩, h1⟩, h2⟩, h5⟩

/-- The duplicate check never panics on a list whose records all carry
recognised types. -/
theorem dupFold_valid_not_fault (ts : List TargetSpec)
    (hv : ∀ t ∈ ts, validType t.type = true) (st : DupState) :
    dupFold st ts ≠ .nilMapFault := by
  induction ts generalizing st with
  | nil => simp [dupFold]
  | cons t rest ih =>
    rw [dupFold]
    cases hstep : dupStep st t with
    | error e =>
      cases e with
      | dup n => simp
      | nilMapFault =>
        have hbad := dupStep_fault_invalid st t hstep
        rw [hv t (List.mem_cons_self t rest)] at hbad
        cases hbad
    | ok st1 =>
      exact ih (fun x hx => hv x (List.mem_cons_of_mem t hx)) st1

/-- If the duplicate check succeeds from some state, no record of the list
had its name already present in a namespace of its type in that state. -/
theorem dupFold_ok_not_mem (ts : List TargetSpec) (st : DupState)
    (h : dupFold st ts = .ok) :
    ∀ r ∈ ts, ∀ ns ∈ nsOf r.type, r.name ∉ nsGet st ns := by
  induction ts generalizing st with
  | nil => simp
  | cons t rest ih =>
    rw [dupFold] at h
    cases hstep : dupStep st t with
    | error e => rw [hstep] at h; cases e <;> simp at h
    | ok st1 =>
      rw [hstep] at h
      dsimp only at h
      intro r hr ns hns hmem
      rcases List.mem_cons.mp hr with rfl | hr2
      · exact dupStep_ok_not_mem st st1 r hstep ns hns hmem
      · exact ih st1 h r hr2 ns hns
          ((mem_nsGet_dupStep_ok st st1 t hstep ns r.name).mpr (Or.inl hmem))

/-- A successful duplicate check implies that no two records of the list
collide (same name, overlapping namespaces). -/
theorem dupFold_ok_pairwise (ts : List TargetSpec) (st : DupState)
    (h : dupFold st ts = .ok) :
    List.Pairwise (fun a b => ¬ Collides a b) ts := by
  induction ts generalizing st with
  | nil => exact .nil
  | cons t rest ih =>
    rw [dupFold] at h
    cases hstep : dupStep st t with
    | error e => rw [hstep] at h; cases e <;> simp at h
    | ok st1 =>
      rw [hstep] at h
      dsimp only at h
      refine List.Pairwise.cons ?_ (ih st1 h)
      intro r hr hcol
      obtain ⟨hname, ns, hnst, hnsr⟩ := hcol
      have hmem1 : t.name ∈ nsGet st1 ns :=
        (mem_nsGet_dupStep_ok st st1 t hstep ns t.name).mpr (Or.inr ⟨hnst, rfl⟩)
      have hnot := dupFold_ok_not_mem rest st1 h r hr ns hnsr
      rw [← hname] at hnot
      exact hnot hmem1

/-- Every recognised type string is inserted into at least one namespace. -/
theorem valid_nsOf_nonempty (ty : String) (h : validType ty = true) :
    ∃ ns, ns ∈ nsOf ty := by
  simp only [validType, Bool.or_eq_true, beq_iff_eq] at h
  rcases h with (((h | h) | h) | h) | h <;> subst h
  · exact ⟨.icmp, by decide⟩
  · exact ⟨.mtr, by decide⟩
  · exact ⟨.mtr, by decide⟩
  · exact ⟨.tcp, by decide⟩
  · exact ⟨.httpGet, by decide⟩

/-- C1: for every target list (of recognised probe types) given to duplicate
detection, two entries whose types share a namespace and whose names are equal
make resolution fail with a duplicate-target error — in particular two entries
of the same type and name, and any pairing of an `ICMP+MTR` entry with an
ICMP, MTR or ICMP+MTR entry of the same name (the compound type occupies both
the ICMP and the MTR namespaces); whereas one ICMP entry and one MTR entry
sharing a name do not conflict. -/
theorem C1_duplicate_namespaces (l1 l2 l3 : List TargetSpec) (t1 t2 : TargetSpec)
    (hv : ∀ t ∈ l1 ++ (t1 :: (l2 ++ (t2 :: l3))), validType t.type = true)
    (hname : t1.name = t2.name) :
    ((∃ ns, ns ∈ nsOf t1.type ∧ ns ∈ nsOf t2.type) →
      ∃ n, hasDuplicateTargets (l1 ++ (t1 :: (l2 ++ (t2 :: l3)))) = .dup n) ∧
    (t1.type = t2.type →
      ∃ n, hasDuplicateTargets (l1 ++ (t1 :: (l2 ++ (t2 :: l3)))) = .dup n) ∧
    (t1.type = "ICMP+MTR" →
      (t2.type = "ICMP" ∨ t2.type = "MTR" ∨ t2.type = "ICMP+MTR") →
      ∃ n, hasDuplicateTargets (l1 ++ (t1 :: (l2 ++ (t2 :: l3)))) = .dup n) ∧
    (t1.type = "ICMP" → t2.type = "MTR" → hasDuplicateTargets [t1, t2] = .ok) := by
  have main : (∃ ns, ns ∈ nsOf t1.type ∧ ns ∈ nsOf t2.type) →
      ∃ n, hasDuplicateTargets (l1 ++ (t1 :: (l2 ++ (t2 :: l3)))) = .dup n := by
    rintro ⟨ns, hns1, hns2⟩
    cases hout : hasDuplicateTargets (l1 ++ (t1 :: (l2 ++ (t2 :: l3)))) with
    | dup n => exact ⟨n, rfl⟩
    | nilMapFault =>
      exact absurd hout (dupFold_valid_not_fault _ hv ⟨[], [], [], []⟩)
    | ok =>
      exfalso
      have hpw := dupFold_ok_pairwise _ ⟨[], [], [], []⟩ hout
      have hs1 : [t2].Sublist (l2 ++ (t2 :: l3)) :=
        List.Sublist.trans (List.Sublist.cons₂ t2 (List.nil_sublist l3))
          (List.sublist_append_right l2 (t2 :: l3))
      have hs2 : [t1, t2].Sublist (t1 :: (l2 ++ (t2 :: l3))) :=
        List.Sublist.cons₂ t1 hs1
      have hsub : [t1, t2].Sublist (l1 ++ (t1 :: (l2 ++ (t2 :: l3)))) :=
        List.Sublist.trans hs2
          (List.sublist_append_right l1 (t1 :: (l2 ++ (t2 :: l3))))
      have hpw2 := List.Pairwise.sublist hsub hpw
      exact (List.pairwise_cons.mp hpw2).1 t2 (List.mem_singleton.mpr rfl)
        ⟨hname, ns, hns1, hns2⟩
  refine ⟨main, ?_, ?_, ?_⟩
  · intro heq
    obtain ⟨ns, hns⟩ :=
      valid_nsOf_nonempty t1.type (hv t1 (by simp))
    exact main ⟨ns, hns, heq ▸ hns⟩
  · intro h1 h2
    refine main ?_
    rcases h2 with h2 | h2 | h2
    · exact ⟨.icmp, by rw [h1]; decide, by rw [h2]; decide⟩
    · exact ⟨.mtr, by rw [h1]; decide, by rw [h2]; decide⟩
    · exact ⟨.mtr, by rw [h1]; decide, by rw [h2]; decide⟩
  · intro h1 h2
    simp [hasDuplicateTargets, dupFold, dupStep, h1, h2]

/-- Witness for C1: two ICMP targets named "db1" trip the duplicate check;
an ICMP and an MTR target named "db1" coexist; two ICMP+MTR targets named
"db1" trip it. -/
theorem C1_duplicate_namespaces_witness :
    (∃ n, hasDuplicateTargets [⟨"db1", "h1", "ICMP", "", none, "", []⟩,
        ⟨"db1", "h2", "ICMP", "", none, "", []⟩] = .dup n) ∧
    hasDuplicateTargets [⟨"db1", "h1", "ICMP", "", none, "", []⟩,
        ⟨"db1", "h2", "MTR", "", none, "", []⟩] = .ok ∧
    (∃ n, hasDuplicateTargets [⟨"db1", "h1", "ICMP+MTR", "", none, "", []⟩,
        ⟨"db1", "h2", "ICMP+MTR", "", none, "", []⟩] = .dup n) := by
  refine ⟨?_, ?_, ?_⟩
  · exact (C1_duplicate_namespaces [] [] [] ⟨"db1", "h1", "ICMP", "", none, "", []⟩
      ⟨"db1", "h2", "ICMP", "", none, "", []⟩ (by decide) rfl).2.1 rfl
  · exact (C1_duplicate_namespaces [] [] [] ⟨"db1", "h1", "ICMP", "", none, "", []⟩
      ⟨"db1", "h2", "MTR", "", none, "", []⟩ (by decide) rfl).2.2.2 rfl rfl
  · exact (C1_duplicate_namespaces [] [] [] ⟨"db1", "h1", "ICMP+MTR", "", none, "", []⟩
      ⟨"db1", "h2", "ICMP+MTR", "", none, "", []⟩ (by decide) rfl).2.2.1 rfl
      (Or.inr (Or.inr rfl))

end NetworkExporter
